import Mathlib

/-!
Verification development for the canvas-tree repository
(`src/pages/canvas-board/CanvasBoard.tsx`).

The file shallowly embeds the two parts of the component the specification
talks about:

* the tree layout computed by `drawTree` (lines 77–106), exposed here as
  `computeLayout` — the spec's `computeLayout(entities, surfaceWidth)`
  contract — returning the list of laid-out nodes and connecting edges
  that `drawUser`/`drawLine` would paint;
* the viewport state machine formed by `handleWheel`, `handleMouseDown`,
  `handleMouseMove` and `stopDragging` (lines 109–141), embedded as pure
  transitions on a `Viewport` record;
* the transform composition and clearing geometry of `draw`
  (lines 59–71), embedded as rational-arithmetic predicates.

All numeric quantities are modelled as rationals: every constant in the
source is an exact decimal and every operation performed on the relevant
ranges is exact, so ℚ mirrors the JavaScript number arithmetic on the
values that appear.
-/

namespace CanvasTree

/-- Entity record (`interface User`, CanvasBoard.tsx lines 3–7).
`parentId` is an optional string; `none` models an absent property. -/
structure User where
  id : String
  name : String
  parentId : Option String
deriving DecidableEq, Repr

/-- The fixed dataset (`USERS`, lines 9–14). -/
def USERS : List User :=
  [⟨"1", "Parent", none⟩,
   ⟨"2", "Child 1", some "1"⟩,
   ⟨"3", "Child 2", some "1"⟩,
   ⟨"4", "Child 3", some "1"⟩]

/-- `NODE_WIDTH` (line 16). -/
def NODE_WIDTH : ℚ := 160

/-- `NODE_HEIGHT` (line 17). -/
def NODE_HEIGHT : ℚ := 70

/-- `VERTICAL_GAP` (line 18). -/
def VERTICAL_GAP : ℚ := 120

/-- `HORIZONTAL_GAP` (line 19). -/
def HORIZONTAL_GAP : ℚ := 220

/-- JavaScript truthiness of the optional string `u.parentId`: the test
`!u.parentId` on line 78 is true exactly when the property is absent
(`undefined`) or the empty string, so `jsTruthy` is false on `none` and on
`some ""` and true on every other value. -/
def jsTruthy : Option String → Bool
  | none => false
  | some s => !(decide (s = ""))

/-- A laid-out node: the entity together with the top-left corner handed to
`drawUser` (the spec's `LayoutNode`, width/height being the fixed constants). -/
structure Node where
  user : User
  x : ℚ
  y : ℚ
deriving DecidableEq, Repr

/-- A laid-out edge: the two endpoints handed to `drawLine`
(the spec's `LayoutEdge`). -/
structure Edge where
  x1 : ℚ
  y1 : ℚ
  x2 : ℚ
  y2 : ℚ
deriving DecidableEq, Repr

/-- Default node used with `List.getD`. -/
def dNode : Node := ⟨⟨"", "", none⟩, 0, 0⟩

/-- The `children.forEach((child, index) => ...)` loop of `drawTree`
(lines 92–105): starting at a given index, each child is laid out at
`x = startX + index * HORIZONTAL_GAP`, `y = parentY + VERTICAL_GAP`, and an
edge is recorded from the parent's bottom-center
`(centerX + NODE_WIDTH/2, parentY + NODE_HEIGHT)` to the child's top-center
`(x + NODE_WIDTH/2, y)`. -/
def drawChildrenFrom (centerX parentY startX : ℚ) : Nat → List User → List Node × List Edge
  | _, [] => ([], [])
  | index, child :: rest =>
    let x : ℚ := startX + (index : ℚ) * HORIZONTAL_GAP
    let y : ℚ := parentY + VERTICAL_GAP
    let tail := drawChildrenFrom centerX parentY startX (index + 1) rest
    (Node.mk child x y :: tail.1,
     Edge.mk (centerX + NODE_WIDTH / 2) (parentY + NODE_HEIGHT) (x + NODE_WIDTH / 2) y :: tail.2)

/-- Body of `drawTree` once a parent has been found (lines 81–105):
`children = users.filter(u => u.parentId === parent.id)`,
`centerX = surfaceWidth/2 - NODE_WIDTH/2`, `parentY = 100`,
`startX = centerX - ((children.length - 1) * HORIZONTAL_GAP) / 2`,
then the parent node followed by the per-child nodes and edges. -/
def layoutFor (users : List User) (parent : User) (surfaceWidth : ℚ) : List Node × List Edge :=
  let children := users.filter (fun u => decide (u.parentId = some parent.id))
  let centerX := surfaceWidth / 2 - NODE_WIDTH / 2
  let parentY : ℚ := 100
  let startX := centerX - ((children.length : ℚ) - 1) * HORIZONTAL_GAP / 2
  (Node.mk parent centerX parentY :: (drawChildrenFrom centerX parentY startX 0 children).1,
   (drawChildrenFrom centerX parentY startX 0 children).2)

/-- The layout computation of `drawTree` (lines 77–106), the spec's
`computeLayout(entities, surfaceWidth)`: the parent is
`users.find(u => !u.parentId)`; if none exists the layout is empty, else
the nodes and edges of `layoutFor`. -/
def computeLayout (users : List User) (surfaceWidth : ℚ) : List Node × List Edge :=
  match users.find? (fun u => !jsTruthy u.parentId) with
  | none => ([], [])
  | some parent => layoutFor users parent surfaceWidth

/-- Viewport and drag state of the component: the `scale` and `offset` React
state (lines 24–25) together with the drag refs `isDraggingRef` and
`lastPosRef` (lines 31–32). -/
structure Viewport where
  scale : ℚ
  offsetX : ℚ
  offsetY : ℚ
  dragging : Bool
  lastX : ℚ
  lastY : ℚ
deriving DecidableEq, Repr

/-- `handleWheel` (lines 109–121): with shift held the vertical delta pans
horizontally (`offset.x -= deltaY`); otherwise the scale becomes
`Math.min(4, Math.max(0.25, prev - deltaY * 0.001))`. -/
def handleWheel (shift : Bool) (deltaY : ℚ) (v : Viewport) : Viewport :=
  if shift then
    { v with offsetX := v.offsetX - deltaY }
  else
    { v with scale := min 4 (max 0.25 (v.scale - deltaY * 0.001)) }

/-- `handleMouseDown` (lines 123–126): start dragging and record the pointer
position. -/
def handleMouseDown (x y : ℚ) (v : Viewport) : Viewport :=
  { v with dragging := true, lastX := x, lastY := y }

/-- `handleMouseMove` (lines 128–137): when dragging, add the raw pixel delta
from the last recorded position to the offset and update the recorded
position; otherwise do nothing. -/
def handleMouseMove (x y : ℚ) (v : Viewport) : Viewport :=
  if v.dragging then
    { v with offsetX := v.offsetX + (x - v.lastX),
             offsetY := v.offsetY + (y - v.lastY),
             lastX := x, lastY := y }
  else v

/-- `stopDragging` (lines 139–141), installed for both `onMouseUp` and
`onMouseLeave` (lines 149–150). -/
def stopDragging (v : Viewport) : Viewport :=
  { v with dragging := false }

/-- The pointer and wheel events the canvas element handles
(lines 146–150). -/
inductive Event where
  | wheel (shift : Bool) (deltaY : ℚ)
  | mouseDown (x y : ℚ)
  | mouseMove (x y : ℚ)
  | mouseUp
  | mouseLeave
deriving DecidableEq, Repr

/-- Dispatch of one event to its handler, as wired on the canvas element. -/
def step (v : Viewport) : Event → Viewport
  | .wheel shift deltaY => handleWheel shift deltaY v
  | .mouseDown x y => handleMouseDown x y v
  | .mouseMove x y => handleMouseMove x y v
  | .mouseUp => stopDragging v
  | .mouseLeave => stopDragging v

/-- Sequential processing of a list of events (the host delivers events one
by one; each handler runs to completion). -/
def run (v : Viewport) (es : List Event) : Viewport :=
  es.foldl step v

/-- Processing of a sequence of wheel events only, each given as a pair
(shift held, vertical delta). -/
def wheelRun (v : Viewport) (ws : List (Bool × ℚ)) : Viewport :=
  ws.foldl (fun s e => handleWheel e.1 e.2 s) v

/-- The context transform built by `draw` (lines 66–69): reset to identity,
`ctx.scale(dpr, dpr)`, `ctx.translate(offset.x, offset.y)`,
`ctx.scale(scale, scale)`. The composite maps a logical point `p` to the
device-pixel point `dpr * (offset + scale * p)`. -/
def toDevice (dpr scl offX offY : ℚ) (p : ℚ × ℚ) : ℚ × ℚ :=
  (dpr * (offX + scl * p.1), dpr * (offY + scl * p.2))

/-- A logical point is visible on the surface when its device-pixel image
lies inside the canvas bitmap, whose device size is
`size.width * dpr` by `size.height * dpr` (lines 61–62). -/
def visibleLogical (dpr scl offX offY w h : ℚ) (p : ℚ × ℚ) : Prop :=
  0 ≤ (toDevice dpr scl offX offY p).1 ∧ (toDevice dpr scl offX offY p).1 ≤ w * dpr ∧
  0 ≤ (toDevice dpr scl offX offY p).2 ∧ (toDevice dpr scl offX offY p).2 ≤ h * dpr

/-- The region cleared by
`ctx.clearRect(-offset.x, -offset.y, size.width, size.height)` (line 71).
The arguments are interpreted in the current user space, i.e. in logical
coordinates, so the cleared logical region is the axis-aligned rectangle
with corner `(-offset.x, -offset.y)` and size `(size.width, size.height)`. -/
def clearedRect (offX offY w h : ℚ) (p : ℚ × ℚ) : Prop :=
  -offX ≤ p.1 ∧ p.1 ≤ -offX + w ∧ -offY ≤ p.2 ∧ p.2 ≤ -offY + h

/-- The initial viewport of the component: `scale = 1`, `offset = (0, 0)`
(lines 24–25), not dragging, `lastPos = (0, 0)` (lines 31–32). -/
def v0 : Viewport := ⟨1, 0, 0, false, 0, 0⟩

/-- A well-formed entity set: one root with a non-empty id and two children
referencing it. -/
def usersOK : List User :=
  [⟨"1", "r", none⟩, ⟨"2", "a", some "1"⟩, ⟨"3", "b", some "1"⟩]

/-- An entity set whose root has the empty id, with a child (referencing the
root via `parentId = ""`) placed before the root. -/
def usersC1 : List User := [⟨"2", "c", some ""⟩, ⟨"", "r", none⟩]

/-- An entity set where every entity has a `parentId`, but one of them is the
empty string. -/
def usersC3 : List User := [⟨"1", "a", some ""⟩]

/-- An entity set with two rootless entities (no `parentId`), preceded by an
entity whose `parentId` is the empty string. -/
def usersC10 : List User :=
  [⟨"1", "a", some ""⟩, ⟨"2", "b", none⟩, ⟨"3", "c", none⟩]

/-- An entity set whose first element has a non-matching parent reference,
followed by the root and one child. -/
def usersC10w : List User :=
  [⟨"9", "p", some "zz"⟩, ⟨"1", "r", none⟩, ⟨"2", "c", some "1"⟩]

/-- The root node the layout produces for `USERS` at surface width 1000. -/
def rnC : Node := ⟨⟨"1", "Parent", none⟩, 420, 100⟩

/-- The child nodes the layout produces for `USERS` at surface width 1000. -/
def cnsC : List Node :=
  [⟨⟨"2", "Child 1", some "1"⟩, 200, 220⟩,
   ⟨⟨"3", "Child 2", some "1"⟩, 420, 220⟩,
   ⟨⟨"4", "Child 3", some "1"⟩, 640, 220⟩]

/-- The edges the layout produces for `USERS` at surface width 1000. -/
def edsC : List Edge :=
  [⟨500, 170, 280, 220⟩, ⟨500, 170, 500, 220⟩, ⟨500, 170, 720, 220⟩]

/-! Helper lemmas about the layout pass. -/

theorem drawChildrenFrom_fst_length (cX pY sX : ℚ) (j : Nat) (us : List User) :
    (drawChildrenFrom cX pY sX j us).1.length = us.length := by
  induction us generalizing j with
  | nil => rfl
  | cons c cs ih => simp [drawChildrenFrom, ih]

theorem drawChildrenFrom_snd_length (cX pY sX : ℚ) (j : Nat) (us : List User) :
    (drawChildrenFrom cX pY sX j us).2.length = us.length := by
  induction us generalizing j with
  | nil => rfl
  | cons c cs ih => simp [drawChildrenFrom, ih]

theorem drawChildrenFrom_map_user (cX pY sX : ℚ) (j : Nat) (us : List User) :
    (drawChildrenFrom cX pY sX j us).1.map Node.user = us := by
  induction us generalizing j with
  | nil => rfl
  | cons c cs ih => simp [drawChildrenFrom, ih]

theorem drawChildrenFrom_snd_eq_map (cX pY sX : ℚ) (j : Nat) (us : List User) :
    (drawChildrenFrom cX pY sX j us).2 =
      (drawChildrenFrom cX pY sX j us).1.map
        (fun n => Edge.mk (cX + NODE_WIDTH / 2) (pY + NODE_HEIGHT) (n.x + NODE_WIDTH / 2) n.y) := by
  induction us generalizing j with
  | nil => rfl
  | cons c cs ih => simp [drawChildrenFrom, ih]

theorem drawChildrenFrom_getD (cX pY sX : ℚ) (j : Nat) (us : List User)
    (i : Nat) (h : i < us.length) :
    (drawChildrenFrom cX pY sX j us).1.getD i dNode =
      Node.mk (us.getD i dNode.user) (sX + ((j : ℚ) + (i : ℚ)) * HORIZONTAL_GAP)
        (pY + VERTICAL_GAP) := by
  induction us generalizing j i with
  | nil => simp at h
  | cons c cs ih =>
    cases i with
    | zero => simp [drawChildrenFrom]
    | succ i =>
      have hi : i < cs.length := by simpa using h
      have := ih (j + 1) i hi
      simp only [drawChildrenFrom, List.getD_cons_succ, this]
      push_cast
      ring_nf

theorem computeLayout_none (us : List User) (w : ℚ)
    (h : us.find? (fun u => !jsTruthy u.parentId) = none) :
    computeLayout us w = ([], []) := by
  unfold computeLayout
  rw [h]

theorem computeLayout_some (us : List User) (w : ℚ) (parent : User)
    (h : us.find? (fun u => !jsTruthy u.parentId) = some parent) :
    computeLayout us w = layoutFor us parent w := by
  unfold computeLayout
  rw [h]

theorem find?_eq_some_of_unique {α : Type} {p : α → Bool} {l : List α} {a : α}
    (ha : a ∈ l) (hpa : p a = true) (huniq : ∀ u ∈ l, p u = true → u = a) :
    l.find? p = some a := by
  induction l with
  | nil => simp at ha
  | cons b bs ih =>
    by_cases hb : p b = true
    · have hba : b = a := huniq b (List.mem_cons_self b bs) hb
      rw [List.find?_cons_of_pos _ hb, hba]
    · rw [List.find?_cons_of_neg _ hb]
      rcases List.mem_cons.mp ha with hab | has
      · exact absurd (hab ▸ hpa) hb
      · exact ih has (fun u hu hpu => huniq u (List.mem_cons_of_mem _ hu) hpu)

theorem find?_append_cons {α : Type} {p : α → Bool} (l1 : List α) (a : α) (l2 : List α)
    (h1 : ∀ u ∈ l1, p u = false) (ha : p a = true) :
    (l1 ++ a :: l2).find? p = some a := by
  induction l1 with
  | nil => simpa using List.find?_cons_of_pos _ ha
  | cons b bs ih =>
    have hb : ¬ p b = true := by simp [h1 b (List.mem_cons_self b bs)]
    rw [List.cons_append, List.find?_cons_of_neg _ hb]
    exact ih (fun u hu => h1 u (List.mem_cons_of_mem _ hu))

/-! Helper lemmas about the viewport state machine. -/

theorem run_moves (ps : List (ℚ × ℚ)) (v : Viewport) (hd : v.dragging = true) :
    run v (ps.map (fun p => Event.mouseMove p.1 p.2)) =
      { v with offsetX := v.offsetX + ((ps.getLastD (v.lastX, v.lastY)).1 - v.lastX),
               offsetY := v.offsetY + ((ps.getLastD (v.lastX, v.lastY)).2 - v.lastY),
               lastX := (ps.getLastD (v.lastX, v.lastY)).1,
               lastY := (ps.getLastD (v.lastX, v.lastY)).2 } := by
  induction ps generalizing v with
  | nil =>
    cases v
    simp [run]
  | cons q qs ih =>
    obtain ⟨sc, ox, oy, dr, lx, ly⟩ := v
    simp only at hd
    subst hd
    have h1 : step ⟨sc, ox, oy, true, lx, ly⟩ (Event.mouseMove q.1 q.2) =
        ⟨sc, ox + (q.1 - lx), oy + (q.2 - ly), true, q.1, q.2⟩ := by
      simp [step, handleMouseMove]
    rw [List.map_cons, run, List.foldl_cons, h1]
    have h2 := ih ⟨sc, ox + (q.1 - lx), oy + (q.2 - ly), true, q.1, q.2⟩ rfl
    rw [run] at h2
    rw [h2]
    simp only [List.getLastD_cons, Prod.mk.eta]
    simp [Viewport.mk.injEq]
    constructor <;> ring

theorem handleWheel_scale_bounds (shift : Bool) (d : ℚ) (v : Viewport)
    (h1 : 0.25 ≤ v.scale) (h2 : v.scale ≤ 4) :
    0.25 ≤ (handleWheel shift d v).scale ∧ (handleWheel shift d v).scale ≤ 4 := by
  cases shift with
  | true => simpa [handleWheel] using ⟨h1, h2⟩
  | false =>
    refine ⟨?_, ?_⟩ <;> simp only [handleWheel, Bool.false_eq_true, if_false]
    · exact le_min (by norm_num) (le_max_left _ _)
    · exact min_le_left _ _

/-! Claim theorems. -/

/-- C4: starting from any scale in `[0.25, 4]`, after any finite sequence of
wheel events the scale is still within `[0.25, 4]` inclusive, and each
non-shift wheel event with vertical delta `d` updates the scale to
`clamp(scale - d * 0.001, 0.25, 4) = min 4 (max 0.25 (scale - d * 0.001))`. -/
theorem c4_scale_always_clamped (v : Viewport) (h1 : 0.25 ≤ v.scale) (h2 : v.scale ≤ 4)
    (ws : List (Bool × ℚ)) (d : ℚ) :
    (0.25 ≤ (wheelRun v ws).scale ∧ (wheelRun v ws).scale ≤ 4) ∧
    (handleWheel false d v).scale = min 4 (max 0.25 (v.scale - d * 0.001)) := by
  constructor
  · induction ws generalizing v with
    | nil => exact ⟨h1, h2⟩
    | cons e es ih =>
      have hb := handleWheel_scale_bounds e.1 e.2 v h1 h2
      exact ih (handleWheel e.1 e.2 v) hb.1 hb.2
  · simp [handleWheel]

/-- Witness for C4 at the initial viewport and a single zoom-out wheel
event of delta 500. -/
theorem c4_scale_always_clamped_witness :
    (0.25 ≤ (wheelRun v0 [(false, 500)]).scale ∧ (wheelRun v0 [(false, 500)]).scale ≤ 4) ∧
    (handleWheel false 500 v0).scale = min 4 (max 0.25 (v0.scale - 500 * 0.001)) :=
  c4_scale_always_clamped v0 (by norm_num [v0]) (by norm_num [v0]) [(false, 500)] 500

/-- C5: a drag sequence press at `p0`, moves through `ps`, then release (or
pointer-leave) changes the offset by exactly the net delta from `p0` to the
last move position, however the motion is split; the scale is untouched and
no delta is divided by it. -/
theorem c5_drag_net_delta (v : Viewport) (p0 : ℚ × ℚ) (ps : List (ℚ × ℚ)) (e : Event)
    (he : e = Event.mouseUp ∨ e = Event.mouseLeave) :
    (run v (Event.mouseDown p0.1 p0.2 ::
        (ps.map (fun p => Event.mouseMove p.1 p.2) ++ [e]))).offsetX
      = v.offsetX + ((ps.getLastD p0).1 - p0.1) ∧
    (run v (Event.mouseDown p0.1 p0.2 ::
        (ps.map (fun p => Event.mouseMove p.1 p.2) ++ [e]))).offsetY
      = v.offsetY + ((ps.getLastD p0).2 - p0.2) ∧
    (run v (Event.mouseDown p0.1 p0.2 ::
        (ps.map (fun p => Event.mouseMove p.1 p.2) ++ [e]))).scale
      = v.scale := by
  have hdown : step v (Event.mouseDown p0.1 p0.2) =
      { v with dragging := true, lastX := p0.1, lastY := p0.2 } := by
    simp [step, handleMouseDown]
  have hmoves := run_moves ps { v with dragging := true, lastX := p0.1, lastY := p0.2 } rfl
  have hrun : run v (Event.mouseDown p0.1 p0.2 ::
      (ps.map (fun p => Event.mouseMove p.1 p.2) ++ [e])) =
      step (run { v with dragging := true, lastX := p0.1, lastY := p0.2 }
        (ps.map (fun p => Event.mouseMove p.1 p.2))) e := by
    rw [run, List.foldl_cons, List.foldl_append, ← hdown]
    rfl
  rw [hrun, hmoves]
  rcases he with he | he <;> subst he <;>
    simp [step, stopDragging]

/-- Witness for C5: from the initial viewport, press at `(0,0)`, move to
`(3,4)` then `(10,2)`, release; the offset has changed by `(10, 2)` and the
scale is still `1`. -/
theorem c5_drag_net_delta_witness :
    (run v0 (Event.mouseDown 0 0 ::
        (([((3 : ℚ), (4 : ℚ)), (10, 2)].map (fun p => Event.mouseMove p.1 p.2)) ++
          [Event.mouseUp]))).offsetX = 10 ∧
    (run v0 (Event.mouseDown 0 0 ::
        (([((3 : ℚ), (4 : ℚ)), (10, 2)].map (fun p => Event.mouseMove p.1 p.2)) ++
          [Event.mouseUp]))).offsetY = 2 ∧
    (run v0 (Event.mouseDown 0 0 ::
        (([((3 : ℚ), (4 : ℚ)), (10, 2)].map (fun p => Event.mouseMove p.1 p.2)) ++
          [Event.mouseUp]))).scale = 1 := by
  have h := c5_drag_net_delta v0 (0, 0) [(3, 4), (10, 2)] Event.mouseUp (Or.inl rfl)
  simpa [v0, List.getLastD] using h

/-- C6: a shift-wheel event with vertical delta `d` changes `offset.x` by
exactly `-d` and leaves the scale and `offset.y` unchanged, in every
viewport state. -/
theorem c6_shift_wheel_pans_horizontally (v : Viewport) (d : ℚ) :
    (step v (Event.wheel true d)).offsetX = v.offsetX - d ∧
    (step v (Event.wheel true d)).scale = v.scale ∧
    (step v (Event.wheel true d)).offsetY = v.offsetY := by
  simp [step, handleWheel]

/-- C9: when no drag is in progress a pointer-move event is a no-op on the
whole viewport state (offset, scale and drag anchor), and the same holds for
any move arriving after a pointer-release or a pointer-leave. -/
theorem c9_idle_move_noop (v : Viewport) (x y : ℚ) :
    (v.dragging = false → step v (Event.mouseMove x y) = v) ∧
    step (step v Event.mouseUp) (Event.mouseMove x y) = step v Event.mouseUp ∧
    step (step v Event.mouseLeave) (Event.mouseMove x y) = step v Event.mouseLeave := by
  refine ⟨fun h => ?_, ?_, ?_⟩ <;> simp [step, handleMouseMove, stopDragging, *]

/-- Witness for C9 at the (idle) initial viewport and a move to `(5, 7)`. -/
theorem c9_idle_move_noop_witness : step v0 (Event.mouseMove 5 7) = v0 :=
  (c9_idle_move_noop v0 5 7).1 rfl

/-- C2 counterexample: in the fixed scenario (`USERS`, surface width 1000)
the laid-out positions are root `(420, 100)` and children `(200, 220)`,
`(420, 220)`, `(640, 220)` — the node x-values are not `280, 500, 720` as the
claim states (those are the childrens' center x-values). -/
theorem c2_counterexample :
    (computeLayout USERS 1000).1.map (fun n => (n.x, n.y)) =
      [(420, 100), (200, 220), (420, 220), (640, 220)] ∧
    (computeLayout USERS 1000).1.map Node.x ≠ [420, 280, 500, 720] := by
  constructor <;>
  · simp [computeLayout, layoutFor, drawChildrenFrom, USERS, jsTruthy,
      NODE_WIDTH, NODE_HEIGHT, VERTICAL_GAP, HORIZONTAL_GAP, List.find?, List.filter_cons]
    norm_num

/-- C2 (amended): for the scenario entity set `USERS` with surface width
1000, the root is laid out at `(420, 100)` and the children at `y = 220`
with x-values `200, 420, 640`, i.e. starting at
`startX = rootX - (childCount - 1) * 220 / 2 = 200` (where `rootX = 420` is
the root node's x) and stepping by 220; accordingly the child center
x-values are `280, 500, 720` and the edges run from `(500, 170)` to those
top-centers. -/
theorem c2_scenario_positions :
    computeLayout USERS 1000 = (rnC :: cnsC, edsC) := by
  simp [computeLayout, layoutFor, drawChildrenFrom, USERS, jsTruthy,
    NODE_WIDTH, NODE_HEIGHT, VERTICAL_GAP, HORIZONTAL_GAP, List.find?, List.filter_cons,
    rnC, cnsC, edsC]
  norm_num

/-- C3 counterexample: in `usersC3` no entity lacks a `parentId` (the single
entity carries `parentId = ""`), yet the layout is not empty: the code's
root test `!u.parentId` also fires on the empty string. -/
theorem c3_counterexample :
    (∀ u ∈ usersC3, u.parentId ≠ none) ∧ (computeLayout usersC3 1000).1 ≠ [] := by
  refine ⟨by decide, ?_⟩
  simp [computeLayout, layoutFor, usersC3, jsTruthy, List.find?]

/-- C3 (amended): for every entity set in which no entity lacks a `parentId`
and no entity's `parentId` is the empty string, the layout computation
returns empty node and edge sets (the renderer draws nothing; this is not an
error). -/
theorem c3_no_root_empty_layout (es : List User) (w : ℚ)
    (h : ∀ u ∈ es, u.parentId ≠ none ∧ u.parentId ≠ some "") :
    computeLayout es w = ([], []) := by
  apply computeLayout_none
  apply List.find?_eq_none.mpr
  intro u hu
  obtain ⟨h1, h2⟩ := h u hu
  cases hpid : u.parentId with
  | none => exact absurd hpid h1
  | some s =>
    have hs : s ≠ "" := fun heq => h2 (by rw [hpid, heq])
    simp [jsTruthy, hpid, hs]

/-- Witness for C3 at a one-entity set whose `parentId` is a non-empty
string. -/
theorem c3_no_root_empty_layout_witness :
    computeLayout [⟨"2", "c", some "1"⟩] 1000 = ([], []) :=
  c3_no_root_empty_layout [⟨"2", "c", some "1"⟩] 1000 (by decide)

/-- C8 counterexample: with device pixel ratio 2, scale 1/2, zero offset and
a 100×100 surface, the logical point `(150, 50)` is visible on the surface
but lies outside the rectangle cleared by `clearRect`: the cleared region is
not the visible logical rectangle once the scale differs from 1. -/
theorem c8_counterexample :
    visibleLogical 2 (1/2) 0 0 100 100 (150, 50) ∧
    ¬ clearedRect 0 0 100 100 (150, 50) := by
  constructor
  · norm_num [visibleLogical, toDevice]
  · norm_num [clearedRect]

/-- C8 (amended): each frame's `clearRect` call clears exactly the logical
rectangle with corner `(-offset.x, -offset.y)` and the surface's size — a
region that accounts for the offset but not for the scale: for every
positive device pixel ratio it coincides with the visible logical rectangle
precisely in the `scale = 1` interpretation of the transform. -/
theorem c8_cleared_eq_visible_at_scale_one (dpr offX offY w h : ℚ) (p : ℚ × ℚ)
    (hdpr : 0 < dpr) :
    clearedRect offX offY w h p ↔ visibleLogical dpr 1 offX offY w h p := by
  unfold clearedRect visibleLogical toDevice
  simp only [one_mul]
  constructor
  · rintro ⟨a, b, c, d⟩
    refine ⟨?_, ?_, ?_, ?_⟩ <;> nlinarith
  · rintro ⟨a, b, c, d⟩
    refine ⟨?_, ?_, ?_, ?_⟩ <;> nlinarith

/-- Witness for C8 at device pixel ratio 2, offset `(3, 4)`, a 10×10
surface and the origin. -/
theorem c8_cleared_eq_visible_at_scale_one_witness :
    clearedRect 3 4 10 10 (0, 0) ↔ visibleLogical 2 1 3 4 10 10 (0, 0) :=
  c8_cleared_eq_visible_at_scale_one 2 3 4 10 10 (0, 0) (by norm_num)

/-- C1 counterexample: `usersC1` contains exactly one rootless entity (the
second, with no `parentId` and id `""`) and one entity whose `parentId`
equals that root's id, yet the layout does not contain the claimed
`1 + N = 2` nodes: the empty-string `parentId` of the first entity makes the
code select it as the parent instead. -/
theorem c1_counterexample :
    usersC1.filter (fun u => decide (u.parentId = none)) = [⟨"", "r", none⟩] ∧
    (∀ u ∈ usersC1, u.parentId ≠ none → u.parentId = some "") ∧
    (computeLayout usersC1 1000).1.length ≠ 2 := by
  refine ⟨by decide, by decide, ?_⟩
  simp [computeLayout, layoutFor, drawChildrenFrom, usersC1, jsTruthy,
    List.find?, List.filter_cons]

/-- C1 (amended): for every entity set containing exactly one rootless
entity (no `parentId`) whose id is non-empty, and otherwise only entities
whose `parentId` equals the root's id, the layout has exactly one root node
(first in the node list, carrying the root entity), the N referencing
entities as child nodes in input order, and N edges, each running from the
root node's bottom-center `(rootX + 160/2, rootY + 70)` to the
corresponding child node's top-center `(childX + 160/2, childY)`. -/
theorem c1_layout_counts_and_edges (es : List User) (root : User) (w : ℚ)
    (h1 : es.filter (fun u => decide (u.parentId = none)) = [root])
    (h2 : ∀ u ∈ es, u.parentId ≠ none → u.parentId = some root.id)
    (h3 : root.id ≠ "") :
    ∃ rn cns,
      (computeLayout es w).1 = rn :: cns ∧
      rn.user = root ∧
      cns.map Node.user = es.filter (fun u => decide (u.parentId = some root.id)) ∧
      cns.length = (es.filter (fun u => decide (u.parentId = some root.id))).length ∧
      (computeLayout es w).2 = cns.map (fun n =>
        Edge.mk (rn.x + NODE_WIDTH / 2) (rn.y + NODE_HEIGHT) (n.x + NODE_WIDTH / 2) n.y) := by
  have hrootfilter : root ∈ es.filter (fun u => decide (u.parentId = none)) := by
    rw [h1]
    exact List.mem_singleton.mpr rfl
  have hrootmem : root ∈ es := List.mem_of_mem_filter hrootfilter
  have hrootnone : root.parentId = none := by
    simpa using List.of_mem_filter hrootfilter
  have hfals : (fun u => !jsTruthy u.parentId) root = true := by
    simp [jsTruthy, hrootnone]
  have huniq : ∀ u ∈ es, (fun u => !jsTruthy u.parentId) u = true → u = root := by
    intro u hu hp
    cases hpid : u.parentId with
    | none =>
      have hm : u ∈ es.filter (fun u => decide (u.parentId = none)) :=
        List.mem_filter.mpr ⟨hu, by simp [hpid]⟩
      rw [h1] at hm
      simpa using hm
    | some s =>
      have hs : s = "" := by simpa [jsTruthy, hpid] using hp
      have hps := h2 u hu (by simp [hpid])
      rw [hpid] at hps
      have : root.id = "" := by
        have := Option.some.inj hps
        rw [← this, hs]
      exact absurd this h3
  have hfind : es.find? (fun u => !jsTruthy u.parentId) = some root :=
    find?_eq_some_of_unique hrootmem hfals huniq
  rw [computeLayout_some es w root hfind]
  unfold layoutFor
  refine ⟨_, _, rfl, rfl, drawChildrenFrom_map_user _ _ _ _ _, ?_, ?_⟩
  · rw [drawChildrenFrom_fst_length]
  · exact drawChildrenFrom_snd_eq_map (w / 2 - NODE_WIDTH / 2) 100 _ 0
      (es.filter (fun u => decide (u.parentId = some root.id)))

/-- Witness for C1 at `usersOK` (root `"1"`, two children) and surface
width 1000. -/
theorem c1_layout_counts_and_edges_witness :
    ∃ rn cns,
      (computeLayout usersOK 1000).1 = rn :: cns ∧
      rn.user = ⟨"1", "r", none⟩ ∧
      cns.map Node.user = usersOK.filter (fun u => decide (u.parentId = some "1")) ∧
      cns.length = (usersOK.filter (fun u => decide (u.parentId = some "1"))).length ∧
      (computeLayout usersOK 1000).2 = cns.map (fun n =>
        Edge.mk (rn.x + NODE_WIDTH / 2) (rn.y + NODE_HEIGHT) (n.x + NODE_WIDTH / 2) n.y) :=
  c1_layout_counts_and_edges usersOK ⟨"1", "r", none⟩ 1000 (by decide) (by decide) (by decide)

/-- C7 counterexample: in the `USERS` scenario at width 1000 the child node
x-positions are `200, 420, 640`; reflecting the child x-value 200 across the
root node's center x `420 + 160/2 = 500` gives 800, which is not a child
x-position — the x-positions are not symmetric around the root's center
x-position (they are symmetric around the root's own x, 420). -/
theorem c7_counterexample :
    (200 : ℚ) ∈ (computeLayout USERS 1000).1.tail.map Node.x ∧
    2 * (((computeLayout USERS 1000).1.headD dNode).x + NODE_WIDTH / 2) - 200 ∉
      (computeLayout USERS 1000).1.tail.map Node.x := by
  constructor <;>
  · simp [computeLayout, layoutFor, drawChildrenFrom, USERS, jsTruthy,
      NODE_WIDTH, NODE_HEIGHT, VERTICAL_GAP, HORIZONTAL_GAP, List.find?, List.filter_cons,
      dNode]
    norm_num

/-- C7 (amended): for every entity set and surface width whose layout is
non-empty, the child node x-positions are symmetric around the root node's
x-position (equivalently, the child center x-values are symmetric around
the root's center x), and consecutive children differ by exactly 220
logical units. -/
theorem c7_children_symmetric_about_root_x (es : List User) (w : ℚ)
    (rn : Node) (cns : List Node) (eds : List Edge)
    (h : computeLayout es w = (rn :: cns, eds)) :
    (∀ i, i < cns.length →
      (cns.getD i dNode).x + (cns.getD (cns.length - 1 - i) dNode).x = 2 * rn.x) ∧
    (∀ i, i + 1 < cns.length →
      (cns.getD (i + 1) dNode).x - (cns.getD i dNode).x = HORIZONTAL_GAP) := by
  rcases hfind : es.find? (fun u => !jsTruthy u.parentId) with _ | parent
  · rw [computeLayout_none es w hfind] at h
    simp [Prod.ext_iff] at h
  · rw [computeLayout_some es w parent hfind] at h
    simp only [layoutFor, Prod.mk.injEq, List.cons.injEq] at h
    obtain ⟨⟨hrn, hcns⟩, he⟩ := h
    subst hrn
    subst hcns
    constructor
    · intro i hi
      rw [drawChildrenFrom_fst_length] at hi ⊢
      have hL : 0 < (es.filter (fun u => decide (u.parentId = some parent.id))).length :=
        lt_of_le_of_lt (Nat.zero_le i) hi
      rw [drawChildrenFrom_getD _ _ _ _ _ i hi,
        drawChildrenFrom_getD _ _ _ _ _ _ (by omega :
          (es.filter (fun u => decide (u.parentId = some parent.id))).length - 1 - i <
            (es.filter (fun u => decide (u.parentId = some parent.id))).length)]
      have hcast : (((es.filter (fun u => decide (u.parentId = some parent.id))).length
          - 1 - i : Nat) : ℚ) =
          ((es.filter (fun u => decide (u.parentId = some parent.id))).length : ℚ) - 1 - i := by
        have h1 : ((es.filter (fun u => decide (u.parentId = some parent.id))).length
            - 1 - i : Nat) =
            (es.filter (fun u => decide (u.parentId = some parent.id))).length - (1 + i) := by
          omega
        rw [h1, Nat.cast_sub (by omega)]
        push_cast
        ring
      dsimp only
      rw [hcast]
      push_cast
      ring
    · intro i hi
      rw [drawChildrenFrom_fst_length] at hi
      rw [drawChildrenFrom_getD _ _ _ _ _ (i + 1) hi,
        drawChildrenFrom_getD _ _ _ _ _ i (by omega)]
      dsimp only
      push_cast
      ring

/-- Witness for C7 at the `USERS` scenario: the outer children 200 and 640
sum to twice the root x 420, and the second child is 220 to the right of
the first. -/
theorem c7_children_symmetric_about_root_x_witness :
    (cnsC.getD 0 dNode).x + (cnsC.getD (cnsC.length - 1 - 0) dNode).x = 2 * rnC.x ∧
    (cnsC.getD (0 + 1) dNode).x - (cnsC.getD 0 dNode).x = HORIZONTAL_GAP := by
  have h := c7_children_symmetric_about_root_x USERS 1000 rnC cnsC edsC (by
    simp [computeLayout, layoutFor, drawChildrenFrom, USERS, jsTruthy,
      NODE_WIDTH, NODE_HEIGHT, VERTICAL_GAP, HORIZONTAL_GAP, List.find?, List.filter_cons,
      rnC, cnsC, edsC]
    norm_num)
  exact ⟨h.1 0 (by simp [cnsC]), h.2 0 (by simp [cnsC])⟩

/-- C10 counterexample: `usersC10` contains more than one rootless entity
(both `⟨"2", "b", none⟩` and `⟨"3", "c", none⟩` have no `parentId`), and the
first rootless entity in input order is `⟨"2", "b", none⟩`; yet no node of
the layout carries it, so it is not selected as the root — the code instead
selects the earlier entity whose `parentId` is the empty string. -/
theorem c10_counterexample :
    (⟨"2", "b", none⟩ : User) ∈ usersC10 ∧
    (⟨"3", "c", none⟩ : User) ∈ usersC10 ∧
    (⟨"2", "b", none⟩ : User) ≠ (⟨"3", "c", none⟩ : User) ∧
    (⟨"2", "b", none⟩ : User).parentId = none ∧
    (⟨"3", "c", none⟩ : User).parentId = none ∧
    usersC10.find? (fun u => decide (u.parentId = none)) = some ⟨"2", "b", none⟩ ∧
    ∀ n ∈ (computeLayout usersC10 1000).1, n.user ≠ ⟨"2", "b", none⟩ := by
  refine ⟨by decide, by decide, by decide, by decide, by decide, by decide, ?_⟩
  simp [computeLayout, layoutFor, drawChildrenFrom, usersC10, jsTruthy,
    List.find?, List.filter_cons]

/-- C10 (amended): the entity selected as root is the first entity in input
order whose `parentId` is absent or the empty string; its node heads the
node list, the child nodes are exactly the entities whose `parentId` equals
its id (in input order, with one edge each), and every other entity — all
remaining rootless ones and any entity whose `parentId` differs from the
selected root's id — produces no node and no edge. -/
theorem c10_first_falsy_selected (es : List User) (w : ℚ) (l1 l2 : List User) (root : User)
    (hsplit : es = l1 ++ root :: l2)
    (hbefore : ∀ u ∈ l1, jsTruthy u.parentId = true)
    (hroot : jsTruthy root.parentId = false) :
    ∃ rn cns,
      (computeLayout es w).1 = rn :: cns ∧
      rn.user = root ∧
      cns.map Node.user = es.filter (fun u => decide (u.parentId = some root.id)) ∧
      (computeLayout es w).2.length = cns.length ∧
      ∀ u ∈ es, u ≠ root → u.parentId ≠ some root.id →
        ∀ n ∈ (computeLayout es w).1, n.user ≠ u := by
  have hfind : es.find? (fun u => !jsTruthy u.parentId) = some root := by
    rw [hsplit]
    apply find?_append_cons
    · intro u hu
      simp [hbefore u hu]
    · simp [hroot]
  rw [computeLayout_some es w root hfind]
  unfold layoutFor
  refine ⟨_, _, rfl, rfl, drawChildrenFrom_map_user _ _ _ _ _, ?_, ?_⟩
  · rw [drawChildrenFrom_snd_length, drawChildrenFrom_fst_length]
  · intro u hu hne hpid n hn heq
    rcases List.mem_cons.mp hn with hhead | htail
    · apply hne
      rw [← heq, hhead]
    · have hmap : n.user ∈ (drawChildrenFrom (w / 2 - NODE_WIDTH / 2) 100
          (w / 2 - NODE_WIDTH / 2 -
            (((es.filter (fun u => decide (u.parentId = some root.id))).length : ℚ) - 1)
              * HORIZONTAL_GAP / 2) 0
          (es.filter (fun u => decide (u.parentId = some root.id)))).1.map Node.user :=
        List.mem_map_of_mem Node.user htail
      rw [drawChildrenFrom_map_user] at hmap
      have := List.of_mem_filter hmap
      rw [heq] at this
      simp at this
      exact hpid this

/-- Witness for C10 at `usersC10w`: the first entity has a non-matching
(truthy) parent reference, the second is selected as root, the third is its
only child, and the first produces no node. -/
theorem c10_first_falsy_selected_witness :
    ∃ rn cns,
      (computeLayout usersC10w 1000).1 = rn :: cns ∧
      rn.user = ⟨"1", "r", none⟩ ∧
      cns.map Node.user = usersC10w.filter (fun u => decide (u.parentId = some "1")) ∧
      (computeLayout usersC10w 1000).2.length = cns.length ∧
      ∀ u ∈ usersC10w, u ≠ ⟨"1", "r", none⟩ → u.parentId ≠ some "1" →
        ∀ n ∈ (computeLayout usersC10w 1000).1, n.user ≠ u :=
  c10_first_falsy_selected usersC10w 1000 [⟨"9", "p", some "zz"⟩] [⟨"2", "c", some "1"⟩]
    ⟨"1", "r", none⟩ rfl (by decide) rfl

end CanvasTree
